import Mathlib

/-!
Verification development for the RAG service retrieval pipeline.

The definitions below are shallow embeddings of the Python source:
- `app/rag/text_splitter.py` (`TextSplitter.split_text`)
- `app/rag/rag_service.py` (`process_document`, `search_hybrid`, `delete_document`)
- `app/rag/llm.py` (`chat_completion`)
- `app/rag/vectorstore.py` (`get_user_collection_name`, `add_user_message`,
  `similarity_search`, `search_user_messages`)
- `app/api/endpoints/chat.py` (`chat_with_rag` context construction and
  best-effort writes)

Text is modelled as `List Char`; Python floats are modelled as rationals
(all concrete inputs used below are exact in binary floating point, so the
rational model agrees with the float computation at those inputs); the
relational store and the vector store are modelled as explicit state
threaded through the operations, with external calls given by oracle
parameters returning `Except`.
-/

namespace RagService

/-- A text is a list of characters (Python `str`). -/
abbrev Text := List Char

/-- Python whitespace characters matched by `str.strip` and `\s` (ASCII range). -/
def isPySpace (c : Char) : Bool :=
  c = ' ' || c = '\t' || c = '\n' || c = '\r' || c = '\x0b' || c = '\x0c'

/-- Python `str.strip()`: drop leading and trailing whitespace. -/
def pyStrip (t : Text) : Text :=
  ((t.dropWhile isPySpace).reverse.dropWhile isPySpace).reverse

/-- Helper for `collapseWs`: the flag records whether we are inside a
whitespace run whose single replacement space was already emitted. -/
def collapseWsAux : Bool → Text → Text
  | _, [] => []
  | inRun, c :: rest =>
    if isPySpace c then
      if inRun then collapseWsAux true rest
      else ' ' :: collapseWsAux true rest
    else c :: collapseWsAux false rest

/-- Collapse each run of whitespace to a single space
(`re.sub(r"\s+", " ", ·)`). -/
def collapseWs (t : Text) : Text := collapseWsAux false t

/-- The normalization performed at the top of `split_text`:
`text = re.sub(r"\s+", " ", text.strip())`. -/
def normalizeText (t : Text) : Text := collapseWs (pyStrip t)

/-- Normalize a Python slice bound to an index into a string of length
`len` (negative indices count from the end, out-of-range indices clamp). -/
def pyIdx (len : Nat) (i : Int) : Nat :=
  if i < 0 then len - (-i).toNat else min i.toNat len

/-- Python slice `t[s:e]`. -/
def pySlice (t : Text) (s e : Int) : Text :=
  let s1 := pyIdx t.length s
  let e1 := pyIdx t.length e
  (t.drop s1).take (e1 - s1)

/-- Index of the last occurrence of `c` in `l` (−1 when absent). -/
def lastIdxOf (c : Char) : Text → Int
  | [] => -1
  | a :: rest =>
    let r := lastIdxOf c rest
    if 0 ≤ r then r + 1 else if a = c then 0 else -1

/-- Python `t.rfind(c, s, e)`: highest index `i` with `s ≤ i < e` and
`t[i] = c`, else −1 (bounds normalized as Python does). -/
def rfindChar (t : Text) (c : Char) (s e : Int) : Int :=
  let s1 := pyIdx t.length s
  let e1 := pyIdx t.length e
  let w := (t.drop s1).take (e1 - s1)
  let r := lastIdxOf c w
  if 0 ≤ r then r + s1 else -1

/-- Chunker configuration (`TextSplitter.__init__` stores these unchecked). -/
structure SplitterCfg where
  chunk_size : Nat
  chunk_overlap : Nat
deriving DecidableEq, Repr

/-- The `while start < len(text)` loop of `TextSplitter.split_text`
(source lines 31–63), indexed by fuel; `none` means the fuel ran out
before the loop exited. -/
def splitLoop (cfg : SplitterCfg) (t : Text) :
    Nat → Int → List Text → Option (List Text)
  | 0, _, _ => none
  | fuel + 1, start, chunks =>
    if start < (t.length : Int) then
      let e0 : Int := start + cfg.chunk_size
      let endPos : Int :=
        if e0 < (t.length : Int) then
          let last_space := rfindChar t ' ' start e0
          let last_punct :=
            max (max (rfindChar t '.' start e0) (rfindChar t '!' start e0))
              (max (rfindChar t '?' start e0) (rfindChar t '\n' start e0))
          if last_punct > last_space && last_punct > start then last_punct + 1
          else if last_space > start then last_space + 1
          else e0
        else e0
      let chunk := pyStrip (pySlice t start endPos)
      let chunks1 := if chunk.isEmpty then chunks else chunks ++ [chunk]
      let start1 := endPos - cfg.chunk_overlap
      if start1 ≥ (t.length : Int) then some chunks1
      else splitLoop cfg t fuel start1 chunks1
    else some chunks

/-- `TextSplitter.split_text` (source lines 18–66), with the loop given
`fuel` iterations. -/
def split_text (cfg : SplitterCfg) (text : Text) (fuel : Nat) :
    Option (List Text) :=
  if (pyStrip text).isEmpty then some []
  else
    let t := normalizeText text
    if t.length ≤ cfg.chunk_size then some [t]
    else splitLoop cfg t fuel 0 []

/-! ## Metadata values (JSON-ish payload entries used for filtering) -/

/-- A metadata value: the payloads in this service only carry ints and
strings in the fields the code filters or displays. -/
inductive MVal
  | int (i : Int)
  | str (s : String)
deriving DecidableEq, Repr, BEq

/-- Rendering of a metadata value inside an f-string. -/
def mvalRender : MVal → String
  | .int i => toString i
  | .str s => s

/-- A metadata mapping, as an insertion-ordered association list
(Python dict). -/
abbrev Metadata := List (String × MVal)

/-- Assignment in an insertion-ordered string-keyed mapping: overwrite
in place when the key exists, else append. -/
def assocSet (l : List (String × α)) (k : String) (v : α) :
    List (String × α) :=
  if l.any (fun kv => kv.1 == k) then
    l.map (fun kv => if kv.1 = k then (k, v) else kv)
  else l ++ [(k, v)]

/-- Python dict assignment `md[k] = v`. -/
def setKey (md : Metadata) (k : String) (v : MVal) : Metadata :=
  assocSet md k v

/-- The conjunctive exact-match filter built in
`QdrantVectorStore.similarity_search` (source lines 206–215): every
listed condition must match the metadata of the point. -/
def matchesFilter (conds : Metadata) (md : Metadata) : Bool :=
  conds.all (fun kv => decide (md.lookup kv.1 = some kv.2))

/-! ## Search results and hybrid fusion (`rag_service.py`) -/

/-- A search result tuple `(text, score, metadata)`. Scores are modelled
as rationals; every concrete score used below is exactly representable in
binary floating point. -/
structure SR where
  text : String
  score : Rat
  meta : Metadata
deriving DecidableEq, Repr

/-- Python `int(q)` on a float/number: truncation toward zero. -/
def pyInt (q : Rat) : Int := if 0 ≤ q then ⌊q⌋ else -⌊-q⌋

/-- `document_k = max(1, int(k * documents_weight))`
(`search_hybrid`, source line 166). -/
def document_k (k : Nat) (documents_weight : Rat) : Nat :=
  max 1 (pyInt ((k : Rat) * documents_weight)).toNat

/-- `message_k = max(1, int(k * user_messages_weight))`
(`search_hybrid`, source line 174). -/
def message_k (k : Nat) (user_messages_weight : Rat) : Nat :=
  max 1 (pyInt ((k : Rat) * user_messages_weight)).toNat

/-- Multiply the score of one result by a source weight
(the tuples appended on source lines 183–188). -/
def weightResult (w : Rat) (r : SR) : SR := ⟨r.text, r.score * w, r.meta⟩

/-- Stable descending insertion for `pySortDescBy`: an element is placed
before the first existing element whose key is not larger, so elements
with equal keys keep their original relative order. -/
def insertDescBy (key : α → Rat) (a : α) : List α → List α
  | [] => [a]
  | b :: rest => if key a < key b then b :: insertDescBy key a rest else a :: b :: rest

/-- Python `list.sort(key=…, reverse=True)`: a stable sort into
descending key order. -/
def pySortDescBy (key : α → Rat) (l : List α) : List α :=
  l.foldr (insertDescBy key) []

/-- `RAGService.search_hybrid` for a present `user_id` (source lines
162–195). The two sub-searches are oracles mapping the requested size to
the returned result list (network calls); the query embedding is shared
and left implicit in the oracles. -/
def search_hybrid (ds ms : Nat → List SR) (k : Nat)
    (user_messages_weight documents_weight : Rat) : List SR :=
  let document_results := ds (document_k k documents_weight)
  let message_results := ms (message_k k user_messages_weight)
  let all_results : List SR := []
  let all_results := document_results.foldl
    (fun acc r => acc ++ [weightResult documents_weight r]) all_results
  let all_results := message_results.foldl
    (fun acc r => acc ++ [weightResult user_messages_weight r]) all_results
  (pySortDescBy (fun r => r.score) all_results).take k

/-! ## LLM gateway (`llm.py`) -/

/-- One chat message dict (role, content). -/
structure ChatMsg where
  role : String
  content : String
deriving DecidableEq, Repr

/-- The message-list construction of `OpenRouterLLM.chat_completion`
(source lines 93–119): append the new user message unless a message with
role user and the same content already occurs anywhere in the history. -/
def chat_completion_messages (conversation_history : List ChatMsg)
    (user_message : String) : List ChatMsg :=
  let messages := conversation_history
  let current_message_in_history :=
    messages.any (fun msg => msg.content == user_message && msg.role == "user")
  if current_message_in_history then messages
  else messages ++ [⟨"user", user_message⟩]

/-! ## Context construction in the chat endpoint (`chat.py`) -/

/-- The source label computed for one retrieved result
(`chat_with_rag`, source lines 109–115). -/
def sourceName (md : Metadata) : String :=
  let ct := (md.lookup "content_type").getD (.str "unknown")
  if ct == .str "document_chunk" then
    match md.lookup "document_title" with
    | some v => mvalRender v
    | none => "Unknown Document"
  else if ct == .str "chat_message" then
    "Previous Message (Session " ++
      mvalRender ((md.lookup "session_id").getD (.str "Unknown")) ++ ")"
  else "Unknown Source"

/-- The relevance-floor loop of `chat_with_rag` (source lines 106–123):
returns `(context_parts, sources, k_points_used)` accumulated over the
fused results, keeping exactly the results with score > 0.6. -/
def contextFold (similar_docs : List SR) : List String × List String × Nat :=
  similar_docs.foldl
    (fun acc r =>
      let source_name := sourceName r.meta
      if r.score > 3 / 5 then
        (acc.1 ++ [r.text], acc.2.1 ++ [source_name], acc.2.2 + 1)
      else acc)
    ([], [], 0)

/-! ## Vector store (`vectorstore.py`)

The Qdrant client itself is external to the repository; collections are
modelled as an association list from collection name to point list, and
similarity scoring as an oracle, per the stated store contract (search
returns up to k matching points of the named collection in descending
score order; upsert replaces by id). -/

/-- A stored point: id, payload text and payload metadata. The embedding
vector is omitted: no claim depends on its value, and similarity scores
are produced by the external store (modelled as a scoring oracle). -/
structure VPoint where
  id : String
  text : String
  meta : Metadata
deriving DecidableEq, Repr

/-- The vector store: named collections of points. -/
structure VStore where
  colls : List (String × List VPoint)
deriving DecidableEq, Repr

/-- Points of one collection (absent collections are empty). -/
def VStore.getColl (vs : VStore) (name : String) : List VPoint :=
  (vs.colls.lookup name).getD []

/-- Replace the contents of one collection. -/
def VStore.setColl (vs : VStore) (name : String) (pts : List VPoint) : VStore :=
  ⟨assocSet vs.colls name pts⟩

/-- Upsert one point: replace any point with the same id, else append. -/
def upsertPoint (pts : List VPoint) (p : VPoint) : List VPoint :=
  pts.filter (fun q => q.id ≠ p.id) ++ [p]

/-- `get_user_collection_name` (source lines 36–38). -/
def get_user_collection_name (user_id : Nat) : String :=
  "user_" ++ toString user_id ++ "_collection"

/-- `QdrantVectorStore.add_texts` (source lines 92–146) with the id
stream given explicitly (the source draws fresh UUID4 strings): zips
texts, metadatas and ids into points, upserts them into the target
collection and returns the ids. -/
def vstore_add_texts (vs : VStore) (collection_name : String)
    (texts : List String) (metadatas : List Metadata) (ids : List String) :
    List String × VStore :=
  let points := (texts.zip (metadatas.zip ids)).map
    (fun t => VPoint.mk t.2.2 t.1 t.2.1)
  (ids, vs.setColl collection_name
    (points.foldl upsertPoint (vs.getColl collection_name)))

/-- `QdrantVectorStore.add_user_message` (source lines 148–187): force
the user id, message type and timestamp into the metadata and add the
single text to the per-user collection. -/
def vstore_add_user_message (vs : VStore) (user_id : Nat)
    (message_text : String) (metadata : Metadata) (message_id : String)
    (timestamp : String) : String × VStore :=
  let collection_name := get_user_collection_name user_id
  let md := setKey (setKey (setKey metadata "user_id" (.int user_id))
    "message_type" (.str "user_message")) "timestamp" (.str timestamp)
  let r := vstore_add_texts vs collection_name [message_text] [md] [message_id]
  (message_id, r.2)

/-- `QdrantVectorStore.similarity_search` (source lines 189–241): clamp
k to at least 1, keep the points of the target collection matching every
filter condition, order them by descending similarity (the scoring
oracle stands for the external cosine computation), truncate to k, and
project each point to its `(text, score, metadata)` tuple. -/
def similarity_search (score : VPoint → Rat) (vs : VStore) (k : Nat)
    (filter_metadata : Metadata) (collection_name : String) : List SR :=
  let k := max 1 k
  let matching := (vs.getColl collection_name).filter
    (fun p => matchesFilter filter_metadata p.meta)
  ((pySortDescBy score matching).take k).map (fun p => ⟨p.text, score p, p.meta⟩)

/-- `QdrantVectorStore.search_user_messages` (source lines 243–270):
search the private collection of the user, forcing the condition
user_id = user_id into the caller-supplied filter. -/
def search_user_messages (score : VPoint → Rat) (vs : VStore) (user_id : Nat)
    (k : Nat) (filter_metadata : Metadata) : List SR :=
  let k := max 1 k
  let collection_name := get_user_collection_name user_id
  let fm := setKey filter_metadata "user_id" (.int user_id)
  similarity_search score vs k fm collection_name

/-- `QdrantVectorStore.delete_texts` (source lines 272–286): remove the
points with the given ids from the target collection. -/
def vstore_delete_texts (vs : VStore) (ids : List String)
    (collection_name : String) : VStore :=
  vs.setColl collection_name
    ((vs.getColl collection_name).filter (fun p => ¬ ids.contains p.id))

/-! ## Relational store and ingest pipeline (`rag_service.py`)

The relational store (SQLAlchemy session) is modelled with explicit
transaction state: committed rows plus a list of pending operations;
commit applies the pending operations, rollback discards them. -/

/-- A document row (the fields the pipeline reads or writes). -/
structure DocRow where
  id : Nat
  title : String
  is_processed : Bool
  owner_id : Nat
deriving DecidableEq, Repr

/-- A document-chunk row. -/
structure ChunkRow where
  content : String
  chunk_index : Nat
  embedding_id : String
  document_id : Nat
deriving DecidableEq, Repr

/-- A pending (uncommitted) relational operation. -/
inductive DbOp
  | addDoc (d : DocRow)
  | addChunk (c : ChunkRow)
  | markProcessed (docId : Nat)
deriving DecidableEq, Repr

/-- The committed relational state. -/
structure DbState where
  docs : List DocRow
  chunks : List ChunkRow
deriving DecidableEq, Repr

/-- Apply one operation to the committed state. -/
def applyOp (s : DbState) : DbOp → DbState
  | .addDoc d => { s with docs := s.docs ++ [d] }
  | .addChunk c => { s with chunks := s.chunks ++ [c] }
  | .markProcessed docId =>
    { s with docs :=
        s.docs.map (fun d => if d.id = docId then { d with is_processed := true } else d) }

/-- A session: committed state plus pending operations. -/
structure Db where
  committed : DbState
  pending : List DbOp
deriving DecidableEq, Repr

/-- `db.add(row)`: queue a pending operation. -/
def Db.add (db : Db) (op : DbOp) : Db := ⟨db.committed, db.pending ++ [op]⟩

/-- `await db.commit()`: apply every pending operation. -/
def Db.commit (db : Db) : Db := ⟨db.pending.foldl applyOp db.committed, []⟩

/-- `await db.rollback()`: discard every pending operation. -/
def Db.rollback (db : Db) : Db := ⟨db.committed, []⟩

/-- `RAGService.process_document` (source lines 23–90). The splitter is
the injected `self.text_splitter`; `encodeRes` is the outcome of the
embedding call, `upsertRes` the outcome of the Qdrant upsert inside
`add_texts`, and `ids` the UUID stream `add_texts` draws from; `docId`
is the primary key the insert returns. Timestamps in the chunk metadata
are omitted. On any failure the error is re-raised after
`db.rollback()`. -/
def process_document (splitter : Text → List Text)
    (encodeRes : Except String (List (List Rat)))
    (upsertRes : Except String Unit) (ids : List String)
    (db : Db) (vs : VStore) (docId : Nat) (title : String)
    (content : Text) (userId : Nat) :
    Except String Nat × Db × VStore :=
  let document : DocRow := ⟨docId, title, false, userId⟩
  let db := (db.add (.addDoc document)).commit
  let chunks := splitter content
  match encodeRes with
  | .error e => (.error e, db.rollback, vs)
  | .ok _embeddings =>
    let metadatas : List Metadata := chunks.enum.map (fun ic =>
      [("document_id", MVal.int docId),
       ("document_title", MVal.str title),
       ("chunk_index", MVal.int ic.1),
       ("user_id", MVal.int userId),
       ("content_type", MVal.str "document_chunk")])
    match upsertRes with
    | .error e => (.error e, db.rollback, vs)
    | .ok _ =>
      let r := vstore_add_texts vs "documents"
        (chunks.map (fun c => String.mk c)) metadatas ids
      let chunk_ids := r.1
      let vs := r.2
      let db := ((chunks.map (fun c => String.mk c)).zip chunk_ids).enum.foldl
        (fun acc ice => acc.add (.addChunk
          ⟨ice.2.1, ice.1, ice.2.2, docId⟩)) db
      let db := (db.add (.markProcessed docId)).commit
      (.ok docId, db, vs)

/-- `RAGService.delete_document` (source lines 280–311): look up the
document by id and owner; if it is absent, return False. If it is
found, the next statement reads `document.chunks`. That attribute is a
lazy relationship (models.py declares it with the default
lazy="select" and no eager option) on an instance the AsyncSession just
loaded, and unlike `upload.py` — which runs
`db.refresh(document, attribute_names=["chunks"])` first — nothing has
loaded it, so the attribute access starts a synchronous lazy load
inside the asyncio context and SQLAlchemy raises MissingGreenlet
before the vector delete, the relational delete or the commit run. The
except block logs, rolls back the (empty) pending transaction and
re-raises, so the caller sees the error and neither store changes. -/
def delete_document (db : Db) (vs : VStore) (docId : Nat) (userId : Nat) :
    Except String Bool × Db × VStore :=
  match (db.committed.docs.filter
      (fun d => d.id = docId && d.owner_id = userId)).head? with
  | none => (.ok false, db, vs)
  | some _document => (.error "MissingGreenlet", db.rollback, vs)

/-! ## Chat endpoint flow (`chat.py`, lines 30–206) -/

/-- Outcomes of the external calls made by `chat_with_rag`, in program
order. Each is an `Except`: ok or the raised error. -/
structure ChatDeps where
  createSession : Except String Nat
  saveUserMessage : Except String Nat
  addUserMessageToCollection : Except String String
  hybridSearch : Except String (List SR)
  llmChat : Except String String
  saveAssistantMessage : Except String Nat
  addAssistantToCollection : Except String String
deriving Repr

/-- The response of a successful chat call (the fields the claims
mention). -/
structure ChatOut where
  message : String
  k_points_used : Option Nat
deriving DecidableEq, Repr

/-- The failure-propagation skeleton of `chat_with_rag` (source lines
30–206): both writes to the per-user vector collection are wrapped in
try/except blocks that log and swallow the error; every other external
call propagates its failure (the surrounding handler re-raises). -/
def chat_with_rag (d : ChatDeps) (use_rag : Bool) : Except String ChatOut := do
  let _sessionId ← d.createSession
  let _userMessageId ← d.saveUserMessage
  let _ : Unit := match d.addUserMessageToCollection with
    | .ok _ => ()
    | .error _ => ()
  let kPointsUsed ← if use_rag then do
      let similar_docs ← d.hybridSearch
      pure (contextFold similar_docs).2.2
    else pure 0
  let response ← d.llmChat
  let _assistantMessageId ← d.saveAssistantMessage
  let _ : Unit := match d.addAssistantToCollection with
    | .ok _ => ()
    | .error _ => ()
  pure ⟨response, if use_rag then some kPointsUsed else none⟩

/-- The sub-search size as the specification words it (refinement
comparison only): `max(1, round(k * weight))`, the product rounded to the
nearest integer before the max. -/
def spec_subsearch_k (k : Nat) (w : Rat) : Nat :=
  max 1 (round ((k : Rat) * w)).toNat

/-! ## Helper lemmas: the splitter on uniform (break-free) text -/

theorem dropWhile_replicate_a (n : Nat) :
    (List.replicate n 'a').dropWhile isPySpace = List.replicate n 'a' := by
  cases n with
  | zero => rfl
  | succ m => simp [List.replicate_succ, List.dropWhile_cons, isPySpace]

theorem pyStrip_replicate_a (n : Nat) :
    pyStrip (List.replicate n 'a') = List.replicate n 'a' := by
  unfold pyStrip
  rw [dropWhile_replicate_a, List.reverse_replicate, dropWhile_replicate_a,
    List.reverse_replicate]

theorem collapseWsAux_replicate_a (b : Bool) (n : Nat) :
    collapseWsAux b (List.replicate n 'a') = List.replicate n 'a' := by
  induction n generalizing b with
  | zero => rfl
  | succ m ih => simp [List.replicate_succ, collapseWsAux, isPySpace, ih]

theorem normalizeText_replicate_a (n : Nat) :
    normalizeText (List.replicate n 'a') = List.replicate n 'a' := by
  simp [normalizeText, pyStrip_replicate_a, collapseWs, collapseWsAux_replicate_a]

theorem lastIdxOf_replicate_a (c : Char) (hc : c ≠ 'a') (n : Nat) :
    lastIdxOf c (List.replicate n 'a') = -1 := by
  induction n with
  | zero => rfl
  | succ m ih => simp [List.replicate_succ, lastIdxOf, ih, Ne.symm hc]

theorem rfindChar_replicate_a (c : Char) (hc : c ≠ 'a') (n : Nat) (s e : Int) :
    rfindChar (List.replicate n 'a') c s e = -1 := by
  simp [rfindChar, List.drop_replicate, List.take_replicate,
    lastIdxOf_replicate_a c hc]

theorem pySlice_replicate_a (n : Nat) (s e : Int) :
    pySlice (List.replicate n 'a') s e =
      List.replicate
        (min (pyIdx n e - pyIdx n s) (n - pyIdx n s)) 'a' := by
  simp [pySlice, List.drop_replicate, List.take_replicate]

theorem isEmpty_replicate (n : Nat) (c : Char) :
    (List.replicate n c).isEmpty = decide (n = 0) := by
  cases n with
  | zero => rfl
  | succ m => simp [List.replicate_succ]

/-- One iteration of the chunking loop on break-free uniform text: no
space or sentence terminator occurs in the window, so the chunk ends at
`start + chunk_size` (clamped to the text for the emitted chunk, not for
the stride). -/
theorem splitLoop_replicate_step (n cs co : Nat) (start : Int) (fuel : Nat)
    (chunks : List Text) (h0 : 0 ≤ start) (hlt : start < (n : Int))
    (hcs : 0 < cs) :
    splitLoop ⟨cs, co⟩ (List.replicate n 'a') (fuel + 1) start chunks =
      (if start + (cs : Int) - (co : Int) ≥ (n : Int) then
        some (chunks ++ [List.replicate (min (start.toNat + cs) n - start.toNat) 'a'])
      else
        splitLoop ⟨cs, co⟩ (List.replicate n 'a') fuel (start + (cs : Int) - (co : Int))
          (chunks ++ [List.replicate (min (start.toNat + cs) n - start.toNat) 'a'])) := by
  have hsp : (' ' : Char) ≠ 'a' := by decide
  have hdot : ('.' : Char) ≠ 'a' := by decide
  have hbang : ('!' : Char) ≠ 'a' := by decide
  have hq : ('?' : Char) ≠ 'a' := by decide
  have hnl : ('\n' : Char) ≠ 'a' := by decide
  have hps : pyIdx n start = start.toNat := by
    simp only [pyIdx]
    rw [if_neg (by omega)]
    omega
  have hpe : pyIdx n (start + (cs : Int)) = min (start.toNat + cs) n := by
    simp only [pyIdx]
    rw [if_neg (by omega)]
    omega
  have hchunk : pyStrip (pySlice (List.replicate n 'a') start (start + (cs : Int))) =
      List.replicate (min (start.toNat + cs) n - start.toNat) 'a' := by
    rw [pySlice_replicate_a, hps, hpe, pyStrip_replicate_a]
    congr 1
    omega
  have hne : (min (start.toNat + cs) n - start.toNat) ≠ 0 := by
    have h1 : start.toNat < min (start.toNat + cs) n :=
      lt_min_iff.mpr ⟨by omega, by omega⟩
    exact Nat.sub_ne_zero_of_lt h1
  simp only [splitLoop, List.length_replicate,
    rfindChar_replicate_a _ hsp, rfindChar_replicate_a _ hdot,
    rfindChar_replicate_a _ hbang, rfindChar_replicate_a _ hq,
    rfindChar_replicate_a _ hnl]
  rw [if_pos hlt]
  by_cases he : start + (cs : Int) < (n : Int)
  · rw [if_pos he]
    simp only [show ((-1 : Int) ⊔ -1 ⊔ (-1 ⊔ -1)) = -1 by simp]
    simp only [gt_iff_lt, lt_self_iff_false, decide_False, Bool.false_and,
      Bool.false_eq_true, if_false, show ¬ ((-1 : Int) > start) from by omega]
    rw [hchunk, isEmpty_replicate]
    simp only [decide_eq_true_eq, if_neg hne]
  · rw [if_neg he, hchunk, isEmpty_replicate]
    simp only [decide_eq_true_eq, if_neg hne]

/-- Splitting 2500 break-free characters with chunk_size 1000 and
chunk_overlap 200: the loop runs four times (starts 0, 800, 1600, 2400)
and emits four chunks of sizes 1000, 1000, 900, 100. -/
theorem split_text_2500 :
    split_text ⟨1000, 200⟩ (List.replicate 2500 'a') 10 =
      some [List.replicate 1000 'a', List.replicate 1000 'a',
            List.replicate 900 'a', List.replicate 100 'a'] := by
  unfold split_text
  rw [pyStrip_replicate_a, isEmpty_replicate, normalizeText_replicate_a]
  simp only [List.length_replicate]
  rw [if_neg (show ¬ (decide ((2500 : Nat) = 0) = true) from by decide)]
  rw [if_neg (show ¬ ((2500 : Nat) ≤ 1000) from by decide)]
  rw [show (10 : Nat) = 9 + 1 from rfl,
    splitLoop_replicate_step 2500 1000 200 0 9 [] (by norm_num) (by norm_num)
      (by norm_num)]
  norm_num [-List.reduceReplicate]
  rw [show (9 : Nat) = 8 + 1 from rfl,
    splitLoop_replicate_step 2500 1000 200 800 8 _ (by norm_num) (by norm_num)
      (by norm_num)]
  norm_num [-List.reduceReplicate]
  rw [show (8 : Nat) = 7 + 1 from rfl,
    splitLoop_replicate_step 2500 1000 200 1600 7 _ (by norm_num) (by norm_num)
      (by norm_num)]
  norm_num [-List.reduceReplicate]
  rw [show (7 : Nat) = 6 + 1 from rfl,
    splitLoop_replicate_step 2500 1000 200 2400 6 _ (by norm_num) (by norm_num)
      (by norm_num)]
  norm_num [-List.reduceReplicate]
  omega

/-- With chunk_overlap = chunk_size = 5 on 10 break-free characters the
loop start index stays at 0 forever: no amount of fuel completes it. -/
theorem splitLoop_overlap_stall (fuel : Nat) (chunks : List Text) :
    splitLoop ⟨5, 5⟩ (List.replicate 10 'a') fuel 0 chunks = none := by
  induction fuel generalizing chunks with
  | zero => rfl
  | succ f ih =>
    rw [splitLoop_replicate_step 10 5 5 0 f chunks (by norm_num) (by norm_num)
      (by norm_num)]
    norm_num [-List.reduceReplicate]
    exact ih _

/-- **C2.** For every chunker configuration, split_text terminates on
every input text; in particular a configuration with chunk_overlap ≥
chunk_size is rejected (ValidationError before any external call) or
clamped, so that no input makes the chunking loop run forever.
The code does neither: `TextSplitter.__init__` stores the configuration
unchecked, and with chunk_size = chunk_overlap = 5 on ten break-free
characters the loop never exits — for every fuel bound the loop is still
running (`none`), refuting termination. -/
theorem C2_split_text_diverges_on_overlap_ge_size (fuel : Nat) :
    split_text ⟨5, 5⟩ (List.replicate 10 'a') fuel = none := by
  unfold split_text
  rw [pyStrip_replicate_a, isEmpty_replicate, normalizeText_replicate_a]
  simp only [List.length_replicate]
  rw [if_neg (show ¬ (decide ((10 : Nat) = 0) = true) from by decide)]
  rw [if_neg (show ¬ ((10 : Nat) ≤ 5) from by decide)]
  exact splitLoop_overlap_stall fuel []

/-- **C7 (counterexample).** A document of 2500 characters (break-free,
already whitespace-normalized) split with chunk_size 1000 and
chunk_overlap 200 produces 4 chunks, not the 3 the claim states: after
the third chunk (positions 1600–2500) the stride start = 2600 − 200 =
2400 is still inside the text, so a fourth 100-character chunk is
emitted. -/
theorem C7_counterexample :
    (split_text ⟨1000, 200⟩ (List.replicate 2500 'a') 10).map List.length =
      some 4 ∧
    (split_text ⟨1000, 200⟩ (List.replicate 2500 'a') 10).map List.length ≠
      some 3 := by
  have h4 : (split_text ⟨1000, 200⟩ (List.replicate 2500 'a') 10).map
      List.length = some 4 := by
    rw [split_text_2500]
    rfl
  exact ⟨h4, by rw [h4]; decide⟩

theorem collapseWs_eq_nil_iff (t : Text) : collapseWs t = [] ↔ t = [] := by
  cases t with
  | nil => simp [collapseWs, collapseWsAux]
  | cons c r =>
    simp only [collapseWs, collapseWsAux]
    split <;> simp

/-- **C8.** For every input text whose normalized length is ≤
chunk_size, split_text returns exactly a single-element sequence
containing the normalized text, except that empty input returns an empty
sequence — never a sequence containing one empty string. -/
theorem C8_small_text_single_chunk (cfg : SplitterCfg) (text : Text)
    (fuel : Nat) :
    (normalizeText text = [] → split_text cfg text fuel = some []) ∧
    (normalizeText text ≠ [] → (normalizeText text).length ≤ cfg.chunk_size →
      split_text cfg text fuel = some [normalizeText text]) := by
  have hiff : (pyStrip text).isEmpty = true ↔ normalizeText text = [] := by
    rw [List.isEmpty_iff, normalizeText]
    exact (collapseWs_eq_nil_iff (pyStrip text)).symm
  constructor
  · intro h
    unfold split_text
    rw [if_pos (hiff.mpr h)]
  · intro h hlen
    unfold split_text
    rw [if_neg (fun hh => h (hiff.mp hh))]
    simp only [if_pos hlen]

/-- Witness for C8 at concrete inputs. -/
theorem C8_witness :
    normalizeText ('h' :: 'i' :: []) ≠ [] ∧
    split_text ⟨5, 3⟩ ('h' :: 'i' :: []) 7 =
      some [normalizeText ('h' :: 'i' :: [])] :=
  ⟨by decide,
    (C8_small_text_single_chunk ⟨5, 3⟩ ('h' :: 'i' :: []) 7).2 (by decide)
      (by decide)⟩

/-! ## C3, C4: hybrid sub-search sizes and fusion -/

theorem foldl_append_map (f : α → β) (l : List α) (init : List β) :
    l.foldl (fun acc r => acc ++ [f r]) init = init ++ l.map f := by
  induction l generalizing init with
  | nil => simp
  | cons a t ih => simp [ih]

/-- The hybrid fusion in closed form: weight both result lists, append,
stably sort by descending score, truncate to k. -/
theorem search_hybrid_eq_fused (ds ms : Nat → List SR) (k : Nat)
    (umw dw : Rat) :
    search_hybrid ds ms k umw dw =
      (pySortDescBy (fun r => r.score)
        (((ds (document_k k dw)).map (weightResult dw)) ++
          ((ms (message_k k umw)).map (weightResult umw)))).take k := by
  simp only [search_hybrid]
  rw [foldl_append_map, foldl_append_map]
  simp

/-- **C3 (counterexample).** The claim states the sub-search sizes round
the product to the nearest integer; the code truncates it (`int(...)`):
at k = 3 and weight 1/2 the code requests 1 result where the claimed
formula gives 2; the probe oracle shows `search_hybrid` really asks the
document sub-search for 1 result. -/
theorem C3_counterexample :
    document_k 3 (1 / 2) = 1 ∧ spec_subsearch_k 3 (1 / 2) = 2 ∧
    document_k 3 (1 / 2) ≠ spec_subsearch_k 3 (1 / 2) ∧
    search_hybrid (fun n => [⟨toString n, 0, []⟩]) (fun _ => []) 3 (1 / 2)
      (1 / 2) = [⟨"1", 0, []⟩] := by
  have hdk : document_k 3 (1 / 2) = 1 := by
    norm_num [document_k, pyInt]
  have hmk : message_k 3 (1 / 2) = 1 := by
    norm_num [message_k, pyInt]
  refine ⟨hdk, ?_, ?_, ?_⟩
  · rw [spec_subsearch_k, round_eq]
    norm_num
    decide
  · rw [hdk, spec_subsearch_k, round_eq]
    norm_num
    decide
  · rw [search_hybrid_eq_fused, hdk]
    norm_num [pySortDescBy, insertDescBy, weightResult]
    rfl

/-- **C3 (amended).** The per-source sub-search sizes are computed as
max(1, int(k · weight)) where `int` truncates toward zero — for the
nonnegative weights in use this is the floor, not the nearest integer. -/
theorem C3_subsearch_sizes_truncate (k : Nat) (w : Rat) (hw : 0 ≤ w) :
    document_k k w = max 1 (Int.toNat ⌊(k : Rat) * w⌋) ∧
    message_k k w = max 1 (Int.toNat ⌊(k : Rat) * w⌋) := by
  have h : 0 ≤ (k : Rat) * w := mul_nonneg (by positivity) hw
  constructor
  · rw [document_k, pyInt, if_pos h]
  · rw [message_k, pyInt, if_pos h]

/-- Witness for C3 at k = 5, weight 7/10 (the configured document
weight): the size is 3 = max(1, floor(3.5)). -/
theorem C3_witness :
    (0 : Rat) ≤ 7 / 10 ∧
    document_k 5 (7 / 10) = max 1 (Int.toNat ⌊(5 : Rat) * (7 / 10)⌋) :=
  ⟨by norm_num, (C3_subsearch_sizes_truncate 5 (7 / 10) (by norm_num)).1⟩

/-- **C4.** In hybrid mode each document result score is multiplied by
the document weight and each message result score by the message weight;
the two lists are merged, stably sorted by descending weighted score and
truncated to k. In particular document raw scores [0.9, 0.8], message
raw score [0.95] and weights 0.7/0.3 fuse to the order
[doc1, doc2, msg1] with weighted scores 0.63, 0.56, 0.285. -/
theorem C4_hybrid_fusion :
    (∀ (ds ms : Nat → List SR) (k : Nat) (umw dw : Rat),
      search_hybrid ds ms k umw dw =
        (pySortDescBy (fun r => r.score)
          (((ds (document_k k dw)).map (weightResult dw)) ++
            ((ms (message_k k umw)).map (weightResult umw)))).take k) ∧
    search_hybrid (fun _ => [⟨"doc1", 9 / 10, []⟩, ⟨"doc2", 8 / 10, []⟩])
        (fun _ => [⟨"msg1", 95 / 100, []⟩]) 3 (3 / 10) (7 / 10) =
      [⟨"doc1", 63 / 100, []⟩, ⟨"doc2", 56 / 100, []⟩,
        ⟨"msg1", 285 / 1000, []⟩] := by
  constructor
  · intro ds ms k umw dw
    exact search_hybrid_eq_fused ds ms k umw dw
  · rw [search_hybrid_eq_fused]
    norm_num [pySortDescBy, insertDescBy, weightResult]

/-! ## C5: idempotent history append in the LLM gateway -/

/-- **C5 (counterexample).** The claim says a message equal to an
earlier-but-not-last history entry is appended; the code checks the
whole history, so with history [user "hi", assistant "yo"] and new
message "hi" nothing is appended. -/
theorem C5_counterexample :
    chat_completion_messages [⟨"user", "hi"⟩, ⟨"assistant", "yo"⟩] "hi" =
      [⟨"user", "hi"⟩, ⟨"assistant", "yo"⟩] ∧
    chat_completion_messages [⟨"user", "hi"⟩, ⟨"assistant", "yo"⟩] "hi" ≠
      [⟨"user", "hi"⟩, ⟨"assistant", "yo"⟩] ++ [⟨"user", "hi"⟩] := by
  constructor
  · decide
  · decide

/-- **C5 (amended).** For every history and new message, the message
list sent to the LLM is the history unchanged whenever some message
with role user and the same content occurs anywhere in the history
(last entry or not), and is the history with the new user message
appended whenever no user message in the history has this content. -/
theorem C5_history_membership_append (history : List ChatMsg) (m : String) :
    ((∃ msg ∈ history, msg.role = "user" ∧ msg.content = m) →
      chat_completion_messages history m = history) ∧
    ((∀ msg ∈ history, msg.role = "user" → msg.content ≠ m) →
      chat_completion_messages history m = history ++ [⟨"user", m⟩]) := by
  constructor
  · rintro ⟨msg, hmem, hrole, hcontent⟩
    have hany : (history.any fun msg =>
        msg.content == m && msg.role == "user") = true :=
      List.any_eq_true.mpr ⟨msg, hmem, by simp [hrole, hcontent]⟩
    simp [chat_completion_messages, hany]
  · intro h
    have hany : (history.any fun msg =>
        msg.content == m && msg.role == "user") = false := by
      rw [List.any_eq_false]
      intro msg hmem hc
      simp only [Bool.and_eq_true, beq_iff_eq] at hc
      exact h msg hmem hc.2 hc.1
    simp [chat_completion_messages, hany]

/-- Witness for C5: a history whose first (not last) entry is the same
user message absorbs the append, and a history with no matching user
message receives it. -/
theorem C5_witness :
    chat_completion_messages [⟨"user", "a"⟩, ⟨"assistant", "b"⟩] "a" =
      [⟨"user", "a"⟩, ⟨"assistant", "b"⟩] ∧
    chat_completion_messages [⟨"assistant", "b"⟩] "a" =
      [⟨"assistant", "b"⟩] ++ [⟨"user", "a"⟩] :=
  ⟨(C5_history_membership_append [⟨"user", "a"⟩, ⟨"assistant", "b"⟩] "a").1
      ⟨⟨"user", "a"⟩, by decide, rfl, rfl⟩,
    (C5_history_membership_append [⟨"assistant", "b"⟩] "a").2 (by
      intro msg hmem
      fin_cases hmem
      intro hr
      exact absurd hr (by decide))⟩

/-! ## C6: relevance floor in context construction -/

theorem contextFold_go (l : List SR) (p s : List String) (n : Nat) :
    l.foldl
      (fun acc r =>
        let source_name := sourceName r.meta
        if r.score > 3 / 5 then
          (acc.1 ++ [r.text], acc.2.1 ++ [source_name], acc.2.2 + 1)
        else acc)
      (p, s, n) =
    (p ++ (l.filter (fun r => decide ((3 : Rat) / 5 < r.score))).map
        (fun r => r.text),
      s ++ (l.filter (fun r => decide ((3 : Rat) / 5 < r.score))).map
        (fun r => sourceName r.meta),
      n + (l.filter (fun r => decide ((3 : Rat) / 5 < r.score))).length) := by
  induction l generalizing p s n with
  | nil => simp
  | cons a t ih =>
    by_cases h : (3 : Rat) / 5 < a.score
    · simp only [List.foldl_cons, List.filter_cons, decide_eq_true_eq,
        gt_iff_lt, if_pos h, List.map_cons, List.length_cons]
      rw [ih]
      simp only [Prod.mk.injEq]
      refine ⟨by simp, by simp, by omega⟩
    · simp only [List.foldl_cons, List.filter_cons, decide_eq_true_eq,
        gt_iff_lt, if_neg h]
      exact ih p s n

/-- **C6.** During context construction every fused result with score ≤
0.6 is excluded — a result at exactly 0.6 is excluded (strict
inequality) — and exactly the results with score strictly above 0.6
contribute their text to the context and are counted in
k_points_used. -/
theorem C6_relevance_floor (similar_docs : List SR) :
    (contextFold similar_docs).1 =
      (similar_docs.filter (fun r => decide ((3 : Rat) / 5 < r.score))).map
        (fun r => r.text) ∧
    (contextFold similar_docs).2.2 =
      (similar_docs.filter
        (fun r => decide ((3 : Rat) / 5 < r.score))).length ∧
    (∀ r : SR, r.score ≤ 3 / 5 →
      contextFold (similar_docs ++ [r]) = contextFold similar_docs) := by
  refine ⟨?_, ?_, ?_⟩
  · unfold contextFold
    rw [contextFold_go]
    simp
  · unfold contextFold
    rw [contextFold_go]
    simp
  · intro r hr
    unfold contextFold
    rw [contextFold_go, contextFold_go]
    have hdrop : (([r] : List SR).filter
        (fun x => decide ((3 : Rat) / 5 < x.score))) = [] := by
      simp [not_lt.mpr hr]
    simp [List.filter_append, hdrop]

/-- Witness for C6: a result with score exactly 0.6 is dropped from a
context that keeps a 0.7-score result. -/
theorem C6_witness :
    (⟨"t2", 3 / 5, []⟩ : SR).score ≤ 3 / 5 ∧
    contextFold ([⟨"t1", 7 / 10, []⟩] ++ [⟨"t2", 3 / 5, []⟩]) =
      contextFold [⟨"t1", 7 / 10, []⟩] :=
  ⟨by norm_num,
    (C6_relevance_floor [⟨"t1", 7 / 10, []⟩]).2.2 ⟨"t2", 3 / 5, []⟩
      (by norm_num)⟩

/-! ## C9: best-effort personal-collection writes in the chat flow -/

/-- **C9.** In the chat flow the two writes of the user message and the
assistant reply into the per-user vector collection are best-effort:
whatever their outcome, if every other external call succeeds the chat
response is returned; and each non-best-effort call that fails
propagates its error to the caller unchanged. -/
theorem C9_best_effort_vector_writes (d : ChatDeps) :
    (∀ s u r l a, d.createSession = .ok s → d.saveUserMessage = .ok u →
      d.hybridSearch = .ok r → d.llmChat = .ok l →
      d.saveAssistantMessage = .ok a →
      chat_with_rag d true = .ok ⟨l, some (contextFold r).2.2⟩) ∧
    (∀ e, d.createSession = .error e → chat_with_rag d true = .error e) ∧
    (∀ s e, d.createSession = .ok s → d.saveUserMessage = .error e →
      chat_with_rag d true = .error e) ∧
    (∀ s u e, d.createSession = .ok s → d.saveUserMessage = .ok u →
      d.hybridSearch = .error e → chat_with_rag d true = .error e) ∧
    (∀ s u r e, d.createSession = .ok s → d.saveUserMessage = .ok u →
      d.hybridSearch = .ok r → d.llmChat = .error e →
      chat_with_rag d true = .error e) ∧
    (∀ s u r l e, d.createSession = .ok s → d.saveUserMessage = .ok u →
      d.hybridSearch = .ok r → d.llmChat = .ok l →
      d.saveAssistantMessage = .error e →
      chat_with_rag d true = .error e) := by
  refine ⟨?_, ?_, ?_, ?_, ?_, ?_⟩ <;> intros <;>
    simp_all [chat_with_rag, Bind.bind, Except.bind, Pure.pure, Except.pure]

/-- Witness for C9: both personal-collection writes fail, every other
call succeeds, and the chat response is still returned. -/
theorem C9_witness :
    chat_with_rag
      ⟨.ok 1, .ok 2, .error "collection down", .ok [], .ok "hi", .ok 3,
        .error "collection down"⟩ true = .ok ⟨"hi", some 0⟩ :=
  (C9_best_effort_vector_writes
    ⟨.ok 1, .ok 2, .error "collection down", .ok [], .ok "hi", .ok 3,
      .error "collection down"⟩).1 1 2 [] "hi" 3 rfl rfl rfl rfl rfl

/-! ## C10: per-user collection isolation -/

theorem mem_insertDescBy (key : α → Rat) (x a : α) (l : List α) :
    a ∈ insertDescBy key x l ↔ a = x ∨ a ∈ l := by
  induction l with
  | nil => simp [insertDescBy]
  | cons b t ih =>
    simp only [insertDescBy]
    split
    · rw [List.mem_cons, ih, List.mem_cons]
      tauto
    · simp [List.mem_cons]

theorem mem_pySortDescBy (key : α → Rat) (a : α) (l : List α) :
    a ∈ pySortDescBy key l ↔ a ∈ l := by
  induction l with
  | nil => simp [pySortDescBy]
  | cons b t ih =>
    simp only [pySortDescBy, List.foldr_cons] at ih ⊢
    rw [mem_insertDescBy]
    simp [ih]

theorem lookup_map_set_self (l : List (String × α)) (k : String) (v : α)
    (h : l.any (fun kv => kv.1 == k) = true) :
    (l.map (fun kv => if kv.1 = k then (k, v) else kv)).lookup k =
      some v := by
  induction l with
  | nil => simp at h
  | cons kv t ih =>
    obtain ⟨k1, v1⟩ := kv
    by_cases hk : k1 = k
    · subst hk
      simp [List.lookup_cons]
    · have hkb : (k1 == k) = false := beq_eq_false_iff_ne.mpr hk
      have hkb2 : (k == k1) = false := beq_eq_false_iff_ne.mpr (Ne.symm hk)
      have ht : t.any (fun kv => kv.1 == k) = true := by simpa [hkb] using h
      simp [List.lookup_cons, hk, hkb2, ih ht]

theorem lookup_map_set_ne (l : List (String × α)) (k k1 : String) (v : α)
    (h : k1 ≠ k) :
    (l.map (fun kv => if kv.1 = k then (k, v) else kv)).lookup k1 =
      l.lookup k1 := by
  induction l with
  | nil => simp
  | cons kv t ih =>
    obtain ⟨a, b⟩ := kv
    by_cases ha : a = k
    · subst ha
      have hb : (k1 == a) = false := beq_eq_false_iff_ne.mpr h
      simp [List.lookup_cons, hb, ih]
    · have hb : (a == k) = false := beq_eq_false_iff_ne.mpr ha
      simp [List.lookup_cons, ha, ih]

theorem lookup_append_single (l : List (String × α)) (k k1 : String)
    (v : α) (h : k1 ≠ k) :
    (l ++ [(k, v)]).lookup k1 = l.lookup k1 := by
  induction l with
  | nil => simp [List.lookup_cons, beq_eq_false_iff_ne.mpr h]
  | cons kv t ih =>
    obtain ⟨a, b⟩ := kv
    by_cases ha : k1 = a
    · subst ha
      simp [List.lookup_cons]
    · simp [List.lookup_cons, beq_eq_false_iff_ne.mpr ha, ih]

theorem lookup_append_set_self (l : List (String × α)) (k : String)
    (v : α) (h : l.any (fun kv => kv.1 == k) = false) :
    (l ++ [(k, v)]).lookup k = some v := by
  induction l with
  | nil => simp [List.lookup_cons]
  | cons kv t ih =>
    obtain ⟨a, b⟩ := kv
    simp only [List.any_cons, Bool.or_eq_false_iff] at h
    have h1 : a ≠ k := by
      intro hh
      subst hh
      simp at h
    have hka : (k == a) = false := beq_eq_false_iff_ne.mpr (Ne.symm h1)
    simp [List.lookup_cons, hka, ih h.2]

theorem lookup_assocSet_self (l : List (String × α)) (k : String) (v : α) :
    (assocSet l k v).lookup k = some v := by
  unfold assocSet
  split
  · exact lookup_map_set_self l k v (by assumption)
  · rename_i h
    exact lookup_append_set_self l k v (Bool.not_eq_true _ ▸ h)

theorem lookup_assocSet_ne (l : List (String × α)) (k k1 : String) (v : α)
    (h : k1 ≠ k) :
    (assocSet l k v).lookup k1 = l.lookup k1 := by
  unfold assocSet
  split
  · exact lookup_map_set_ne l k k1 v h
  · exact lookup_append_single l k k1 v h

theorem mem_assocSet_self (l : List (String × α)) (k : String) (v : α) :
    (k, v) ∈ assocSet l k v := by
  unfold assocSet
  split
  · rename_i h
    rcases List.any_eq_true.mp h with ⟨kv, hmem, hk⟩
    exact List.mem_map.mpr ⟨kv, hmem, by simp [eq_of_beq hk]⟩
  · simp

/-- The metadata written by `add_user_message` always carries
user_id = the target user (the update overwrites any caller value, and
the later keys do not disturb it). -/
theorem add_user_message_meta_user_id (u : Nat) (md : Metadata)
    (ts : String) :
    (setKey (setKey (setKey md "user_id" (.int u)) "message_type"
      (.str "user_message")) "timestamp" (.str ts)).lookup "user_id" =
      some (.int u) := by
  rw [setKey, setKey, setKey, lookup_assocSet_ne _ _ _ _ (by decide),
    lookup_assocSet_ne _ _ _ _ (by decide), lookup_assocSet_self]

/-- Soundness of `search_user_messages`: every returned result is the
projection of a point of the per-user collection whose metadata matches
the forced filter user_id = user. -/
theorem search_user_messages_sound (score : VPoint → Rat) (vs : VStore)
    (u k : Nat) (f : Metadata) (r : SR)
    (hr : r ∈ search_user_messages score vs u k f) :
    r.meta.lookup "user_id" = some (.int u) ∧
    ∃ p ∈ vs.getColl (get_user_collection_name u),
      r = ⟨p.text, score p, p.meta⟩ := by
  simp only [search_user_messages, similarity_search] at hr
  rcases List.mem_map.mp hr with ⟨p, hp, rfl⟩
  have hp1 := List.take_subset _ _ hp
  have hp2 := (mem_pySortDescBy score p _).mp hp1
  have hp3 := List.mem_filter.mp hp2
  refine ⟨?_, p, hp3.1, rfl⟩
  have hcond := List.all_eq_true.mp hp3.2 ("user_id", MVal.int u)
    (mem_assocSet_self f "user_id" (MVal.int u))
  exact of_decide_eq_true hcond

/-- **C10.** A search scoped to the private collection of user u1 only
returns projections of points of collection user_u1_collection whose
metadata carries user_id = u1 (the forced exact-match filter), for any
caller-supplied filter; hence after writing a message for u2 ≠ u1, no
result of a u1-scoped search carries the metadata written for u2. -/
theorem C10_collection_isolation (score : VPoint → Rat) (vs : VStore)
    (u1 u2 k : Nat) (f md : Metadata) (msg mid ts : String)
    (hne : u1 ≠ u2) :
    (∀ r ∈ search_user_messages score vs u1 k f,
      r.meta.lookup "user_id" = some (.int u1) ∧
      ∃ p ∈ vs.getColl (get_user_collection_name u1),
        r = ⟨p.text, score p, p.meta⟩) ∧
    (∀ r ∈ search_user_messages score
        (vstore_add_user_message vs u2 msg md mid ts).2 u1 k f,
      r.meta ≠ setKey (setKey (setKey md "user_id" (.int u2)) "message_type"
        (.str "user_message")) "timestamp" (.str ts)) := by
  constructor
  · intro r hr
    exact search_user_messages_sound score vs u1 k f r hr
  · intro r hr heq
    have h1 := (search_user_messages_sound score _ u1 k f r hr).1
    rw [heq, add_user_message_meta_user_id] at h1
    simp only [Option.some.injEq, MVal.int.injEq, Nat.cast_inj] at h1
    exact hne h1.symm

/-- Witness for C10: a message written for user 2 is invisible to a
search scoped to user 1. -/
theorem C10_witness :
    (1 : Nat) ≠ 2 ∧
    ∀ r ∈ search_user_messages (fun _ => 1)
        (vstore_add_user_message ⟨[]⟩ 2 "hello" [] "m1" "ts").2 1 5 [],
      r.meta ≠ setKey (setKey (setKey [] "user_id" (.int 2)) "message_type"
        (.str "user_message")) "timestamp" (.str "ts") :=
  ⟨by decide,
    (C10_collection_isolation (fun _ => 1) ⟨[]⟩ 1 2 5 [] [] "hello" "m1"
      "ts" (by decide)).2⟩

/-! ## C1: failed ingest and the state of the relational store -/

/-- **C1 (counterexample).** When the vector upsert fails, the error is
re-raised after rollback, but the document row was committed before
chunking: the relational store still holds the document (with
is_processed = false), refuting the claim that no document row remains
after a failed ingest. -/
theorem C1_counterexample :
    process_document (fun t => (split_text ⟨1000, 200⟩ t 10).getD [])
        (.ok [[1]]) (.error "store down") ["u0"] ⟨⟨[], []⟩, []⟩ ⟨[]⟩ 1 "T"
        ('h' :: 'i' :: []) 7 =
      (.error "store down", ⟨⟨[⟨1, "T", false, 7⟩], []⟩, []⟩, ⟨[]⟩) ∧
    ([⟨1, "T", false, 7⟩] : List DocRow) ≠ [] := by
  exact ⟨rfl, by simp⟩

/-- **C1 (amended).** When the embedding call or the vector upsert
fails, process_document surfaces that error unchanged and rolls back the
pending relational writes: the final relational state is exactly the
state after the initial create-and-commit — the document row is present
with is_processed = false, no chunk rows for the ingest exist, and the
vector store is untouched. -/
theorem C1_failed_ingest_rolls_back_chunks_only (splitter : Text → List Text)
    (encodeRes : Except String (List (List Rat)))
    (upsertRes : Except String Unit) (ids : List String) (db : Db)
    (vs : VStore) (docId : Nat) (title : String) (content : Text)
    (userId : Nat) (e : String) :
    (encodeRes = .error e →
      process_document splitter encodeRes upsertRes ids db vs docId title
          content userId =
        (.error e, (db.add (.addDoc ⟨docId, title, false, userId⟩)).commit,
          vs)) ∧
    (∀ v, encodeRes = .ok v → upsertRes = .error e →
      process_document splitter encodeRes upsertRes ids db vs docId title
          content userId =
        (.error e, (db.add (.addDoc ⟨docId, title, false, userId⟩)).commit,
          vs)) := by
  constructor
  · intro h
    subst h
    rfl
  · intro v h1 h2
    subst h1
    subst h2
    rfl

/-- Witness for C1: a failing upsert on a one-chunk document leaves
exactly the committed document row behind. -/
theorem C1_witness :
    (Except.error "down" : Except String Unit) = .error "down" ∧
    process_document (fun _ => [['h']]) (.ok []) (.error "down") []
        ⟨⟨[], []⟩, []⟩ ⟨[]⟩ 2 "doc" [] 9 =
      (.error "down",
        ((⟨⟨[], []⟩, []⟩ : Db).add (.addDoc ⟨2, "doc", false, 9⟩)).commit,
        (⟨[]⟩ : VStore)) :=
  ⟨rfl,
    (C1_failed_ingest_rolls_back_chunks_only (fun _ => [['h']]) (.ok [])
      (.error "down") [] ⟨⟨[], []⟩, []⟩ ⟨[]⟩ 2 "doc" [] 9 "down").2 [] rfl
      rfl⟩

/-! ## C7 (amended): the full ingest/delete round trip -/

theorem upsertPoint_fresh (pts : List VPoint) (p : VPoint)
    (h : ∀ q ∈ pts, q.id ≠ p.id) : upsertPoint pts p = pts ++ [p] := by
  unfold upsertPoint
  rw [List.filter_eq_self.mpr (fun q hq => decide_eq_true (h q hq))]

theorem foldl_upsertPoint_fresh (ps pts : List VPoint)
    (h1 : ∀ q ∈ pts, ∀ p ∈ ps, q.id ≠ p.id)
    (h2 : (ps.map (fun p => p.id)).Nodup) :
    ps.foldl upsertPoint pts = pts ++ ps := by
  induction ps generalizing pts with
  | nil => simp
  | cons p rest ih =>
    have hstep : upsertPoint pts p = pts ++ [p] :=
      upsertPoint_fresh pts p (fun q hq => h1 q hq p (List.mem_cons_self p rest))
    rw [List.foldl_cons, hstep, ih (pts ++ [p])]
    · simp
    · intro q hq pr hpr
      rcases List.mem_append.mp hq with hq1 | hq1
      · exact h1 q hq1 pr (List.mem_cons_of_mem p hpr)
      · have hqp : q = p := by simpa using hq1
        subst hqp
        simp only [List.map_cons, List.nodup_cons] at h2
        intro hc
        exact h2.1 (hc ▸ List.mem_map_of_mem (fun x => x.id) hpr)
    · simp only [List.map_cons, List.nodup_cons] at h2
      exact h2.2

theorem getColl_setColl (vs : VStore) (name : String) (pts : List VPoint) :
    (vs.setColl name pts).getColl name = pts := by
  unfold VStore.setColl VStore.getColl
  rw [show (⟨assocSet vs.colls name pts⟩ : VStore).colls =
    assocSet vs.colls name pts from rfl, lookup_assocSet_self]
  rfl

theorem ingest_2500_store (a b c d : String) (s : DbState)
    (vs : VStore) (docId userId : Nat) (title : String)
    (ev : List (List Rat))
    (hfresh : ∀ p ∈ vs.getColl "documents",
      p.id ≠ a ∧ p.id ≠ b ∧ p.id ≠ c ∧ p.id ≠ d)
    (hnd : ([a, b, c, d] : List String).Nodup) :
    (process_document (fun t => (split_text ⟨1000, 200⟩ t 10).getD [])
        (.ok ev) (.ok ()) [a, b, c, d] ⟨s, []⟩ vs docId title
        (List.replicate 2500 'a') userId).2.2.getColl "documents" =
      vs.getColl "documents" ++
        [⟨a, String.mk (List.replicate 1000 'a'),
          [("document_id", .int docId), ("document_title", .str title),
            ("chunk_index", .int 0), ("user_id", .int userId),
            ("content_type", .str "document_chunk")]⟩,
          ⟨b, String.mk (List.replicate 1000 'a'),
          [("document_id", .int docId), ("document_title", .str title),
            ("chunk_index", .int 1), ("user_id", .int userId),
            ("content_type", .str "document_chunk")]⟩,
          ⟨c, String.mk (List.replicate 900 'a'),
          [("document_id", .int docId), ("document_title", .str title),
            ("chunk_index", .int 2), ("user_id", .int userId),
            ("content_type", .str "document_chunk")]⟩,
          ⟨d, String.mk (List.replicate 100 'a'),
          [("document_id", .int docId), ("document_title", .str title),
            ("chunk_index", .int 3), ("user_id", .int userId),
            ("content_type", .str "document_chunk")]⟩] := by
  simp only [process_document]
  rw [split_text_2500]
  simp only [Option.getD_some, List.enum, List.enumFrom, List.map_cons,
    List.map_nil, List.zip_cons_cons, List.zip_nil_right, List.zip_nil_left,
    Nat.reduceAdd, Nat.cast_ofNat, Nat.cast_zero, Nat.cast_one,
    vstore_add_texts]
  rw [getColl_setColl, foldl_upsertPoint_fresh]
  · intro q hq p hp
    obtain ⟨h1, h2, h3, h4⟩ := hfresh q hq
    simp only [List.mem_cons, List.not_mem_nil, or_false] at hp
    rcases hp with rfl | rfl | rfl | rfl
    exacts [h1, h2, h3, h4]
  · simpa using hnd

set_option maxRecDepth 8000 in
theorem ingest_2500_delete_raises (a b c d : String) (s : DbState)
    (vs : VStore) (docId userId : Nat) (title : String)
    (ev : List (List Rat))
    (hfresh : ∀ p ∈ vs.getColl "documents",
      p.id ≠ a ∧ p.id ≠ b ∧ p.id ≠ c ∧ p.id ≠ d)
    (hnd : ([a, b, c, d] : List String).Nodup)
    (hdocs : ∀ dr ∈ s.docs, dr.id ≠ docId) :
    (delete_document
      (process_document (fun t => (split_text ⟨1000, 200⟩ t 10).getD [])
        (.ok ev) (.ok ()) [a, b, c, d] ⟨s, []⟩ vs docId title
        (List.replicate 2500 'a') userId).2.1
      (process_document (fun t => (split_text ⟨1000, 200⟩ t 10).getD [])
        (.ok ev) (.ok ()) [a, b, c, d] ⟨s, []⟩ vs docId title
        (List.replicate 2500 'a') userId).2.2 docId userId).1 =
      .error "MissingGreenlet" := by
  simp only [process_document]
  rw [split_text_2500]
  simp only [Option.getD_some, List.enum, List.enumFrom, List.map_cons,
    List.map_nil, List.zip_cons_cons, List.zip_nil_right, List.zip_nil_left,
    Nat.reduceAdd, Nat.cast_ofNat, Nat.cast_zero, Nat.cast_one,
    vstore_add_texts]
  rw [foldl_upsertPoint_fresh]
  · simp only [Db.add, Db.commit, List.nil_append, List.cons_append,
      List.singleton_append, List.foldl_cons, List.foldl_nil, applyOp]
    have hmapdocs :
        List.map (fun dr : DocRow => if dr.id = docId then
            { id := dr.id, title := dr.title, is_processed := true,
              owner_id := dr.owner_id } else dr)
          (s.docs ++
            [({ id := docId, title := title, is_processed := false,
                owner_id := userId } : DocRow)]) =
        s.docs ++
          [({ id := docId, title := title, is_processed := true,
              owner_id := userId } : DocRow)] := by
      rw [List.map_append]
      congr 1
      · conv_rhs => rw [← List.map_id s.docs]
        apply List.map_congr_left
        intro dr hdr
        rw [if_neg (hdocs dr hdr)]
        rfl
      · simp
    rw [hmapdocs]
    simp only [delete_document]
    have h0docs : s.docs.filter
        (fun dr => dr.id = docId && dr.owner_id = userId) = [] := by
      rw [List.filter_eq_nil_iff]
      intro dr hdr
      simp [hdocs dr hdr]
    rw [List.filter_append, h0docs]
    simp only [List.nil_append, List.filter_cons, decide_True,
      eq_self_iff_true, Bool.and_self, if_true, List.filter_nil,
      List.head?_cons]
  · intro q hq p hp
    obtain ⟨h1, h2, h3, h4⟩ := hfresh q hq
    simp only [List.mem_cons, List.not_mem_nil, or_false] at hp
    rcases hp with rfl | rfl | rfl | rfl
    exacts [h1, h2, h3, h4]
  · simpa using hnd

/-- **C7 (evaluation of the divergence).** A 2500-character break-free
document splits into 4 chunks (of lengths 1000, 1000, 900, 100), not
the 3 the spec expects, and ingesting it upserts 4 vector points with
sequential chunk_index 0, 1, 2, 3 and identical document_id. But the
subsequent deletion cannot remove those vector ids: delete_document
finds the document and then raises on the lazy `document.chunks`
access before any deletion runs, and in general no call to
delete_document ever changes the vector store or returns True. -/
theorem C7_ingest_then_delete_raises (a b c d : String) (s : DbState)
    (vs : VStore) (docId userId : Nat) (title : String)
    (ev : List (List Rat))
    (hfresh : ∀ p ∈ vs.getColl "documents",
      p.id ≠ a ∧ p.id ≠ b ∧ p.id ≠ c ∧ p.id ≠ d)
    (hnd : ([a, b, c, d] : List String).Nodup)
    (hdocs : ∀ dr ∈ s.docs, dr.id ≠ docId) :
    ((split_text ⟨1000, 200⟩ (List.replicate 2500 'a') 10).getD []).length
        = 4 ∧
    (process_document (fun t => (split_text ⟨1000, 200⟩ t 10).getD [])
        (.ok ev) (.ok ()) [a, b, c, d] ⟨s, []⟩ vs docId title
        (List.replicate 2500 'a') userId).2.2.getColl "documents" =
      vs.getColl "documents" ++
        [⟨a, String.mk (List.replicate 1000 'a'),
          [("document_id", .int docId), ("document_title", .str title),
            ("chunk_index", .int 0), ("user_id", .int userId),
            ("content_type", .str "document_chunk")]⟩,
          ⟨b, String.mk (List.replicate 1000 'a'),
          [("document_id", .int docId), ("document_title", .str title),
            ("chunk_index", .int 1), ("user_id", .int userId),
            ("content_type", .str "document_chunk")]⟩,
          ⟨c, String.mk (List.replicate 900 'a'),
          [("document_id", .int docId), ("document_title", .str title),
            ("chunk_index", .int 2), ("user_id", .int userId),
            ("content_type", .str "document_chunk")]⟩,
          ⟨d, String.mk (List.replicate 100 'a'),
          [("document_id", .int docId), ("document_title", .str title),
            ("chunk_index", .int 3), ("user_id", .int userId),
            ("content_type", .str "document_chunk")]⟩] ∧
    (delete_document
      (process_document (fun t => (split_text ⟨1000, 200⟩ t 10).getD [])
        (.ok ev) (.ok ()) [a, b, c, d] ⟨s, []⟩ vs docId title
        (List.replicate 2500 'a') userId).2.1
      (process_document (fun t => (split_text ⟨1000, 200⟩ t 10).getD [])
        (.ok ev) (.ok ()) [a, b, c, d] ⟨s, []⟩ vs docId title
        (List.replicate 2500 'a') userId).2.2 docId userId).1 =
      .error "MissingGreenlet" ∧
    (∀ (db2 : Db) (vs2 : VStore) (i u : Nat),
      (delete_document db2 vs2 i u).2.2 = vs2 ∧
      (delete_document db2 vs2 i u).1 ≠ .ok true) := by
  refine ⟨?_, ?_, ?_, ?_⟩
  · rw [split_text_2500]
    rfl
  · exact ingest_2500_store a b c d s vs docId userId title ev hfresh hnd
  · exact ingest_2500_delete_raises a b c d s vs docId userId title ev
      hfresh hnd hdocs
  · intro db2 vs2 i u
    unfold delete_document
    split
    · exact ⟨rfl, by simp⟩
    · exact ⟨rfl, by simp⟩

/-- Witness for C7: at concrete ids on empty stores, deleting document
7 right after ingesting it raises instead of removing the 4 vectors. -/
theorem C7_witness :
    (["i1", "i2", "i3", "i4"] : List String).Nodup ∧
    (delete_document
      (process_document (fun t => (split_text ⟨1000, 200⟩ t 10).getD [])
        (.ok []) (.ok ()) ["i1", "i2", "i3", "i4"] ⟨⟨[], []⟩, []⟩ ⟨[]⟩ 7 "T"
        (List.replicate 2500 'a') 3).2.1
      (process_document (fun t => (split_text ⟨1000, 200⟩ t 10).getD [])
        (.ok []) (.ok ()) ["i1", "i2", "i3", "i4"] ⟨⟨[], []⟩, []⟩ ⟨[]⟩ 7 "T"
        (List.replicate 2500 'a') 3).2.2 7 3).1 = .error "MissingGreenlet" :=
  ⟨by decide,
    (C7_ingest_then_delete_raises "i1" "i2" "i3" "i4" ⟨[], []⟩ ⟨[]⟩ 7 3 "T" []
      (by intro p hp; exact absurd hp (by simp [VStore.getColl]))
      (by decide)
      (by intro dr hdr; exact absurd hdr (List.not_mem_nil dr))).2.2.1⟩

end RagService
